import Mathlib

/-!
Verification of the Casper_Fusion per-tick simulation core.

This file gives a shallow embedding, in Lean 4, of the algorithmic core of the
Casper_Fusion repository: the domain value objects (`casper/models.py`), the
time-gated measurement selection and weighted fusion strategy
(`casper/fusion/engine.py`, `casper/fusion/strategies.py`), the governance
clarity/risk calculator (`casper/governance/clarity_risk.py`), the canonical
audit-record builder (`casper/audit/chain.py`), the runtime state container
(`casper/state.py`) and the per-tick orchestrator (`casper/step_engine.py`).

Modelling conventions:
* Python/NumPy float64 arithmetic is embedded as exact rational arithmetic
  over `ℚ`; numeric literals such as `0.15` become `15/100`.
* `np.sqrt` (used once, in the fusion dispersion computation) is passed as an
  explicit function parameter `sqrt : ℚ → ℚ`; every theorem below either holds
  for an arbitrary such function or assumes only `sqrt 0 = 0`.
* `hashlib.sha256(...).hexdigest()` is an external primitive of the Python
  standard library, not code of this repository; it is passed as an explicit
  parameter `hash : String → String`.  The audit theorems hold for every
  choice of `hash`, in particular for SHA-256.
* Python `dict`s are embedded as association lists with Python's insertion
  semantics (first-occurrence position, last-written value).
* `datetime.utcnow()` (`EngineState.utc`) is a wall-clock read; the step
  function takes the produced timestamp string as an explicit input `now`.
* NumPy PCG64 random draws and the static preset tables are inputs to the
  step function (`truth`, `meas`, `envp`); the claims verified here quantify
  over them.
-/

/-- Model of `np.clip(x, lo, hi)`. -/
def clip (x lo hi : ℚ) : ℚ := min hi (max lo x)

/-- JSON values, as produced by `casper/audit/chain.py` payload construction. -/
inductive JVal where
  | num (q : ℚ)
  | str (s : String)
  | bool (b : Bool)
  | arr (xs : List JVal)
  | obj (kvs : List (String × JVal))

/-- Order on rendered key/value pairs: compare the keys. -/
def keyLe (a b : String × String) : Prop := a.1 ≤ b.1

/-- Strict key order, used to identify sorted duplicate-free pair lists. -/
def keyLt (a b : String × String) : Prop := a.1 < b.1

instance : DecidableRel keyLe := fun a b => inferInstanceAs (Decidable (a.1 ≤ b.1))

instance : IsTotal (String × String) keyLe := ⟨fun a b => le_total a.1 b.1⟩

instance : IsTrans (String × String) keyLe := ⟨fun _ _ _ h1 h2 => le_trans h1 h2⟩

instance : IsAntisymm (String × String) keyLt :=
  ⟨fun _ _ h1 h2 => absurd (lt_trans h1 h2) (lt_irrefl _)⟩

/-- Model of `json.dumps(..., sort_keys=True)` key ordering on object entries. -/
def sortPairs (l : List (String × String)) : List (String × String) :=
  List.insertionSort keyLe l

/-- Render the body of a JSON object from rendered key/value pairs, with the
compact separators `(",", ":")` used by `build_audit_record`. -/
def renderObjBody (l : List (String × String)) : String :=
  String.intercalate "," (l.map (fun kv => "\"" ++ kv.1 ++ "\":" ++ kv.2))

mutual

/-- Canonical serialization of a JSON value: `json.dumps(payload,
sort_keys=True, separators=(",", ":"))`.  Object keys are sorted; string
escaping is not modelled (all keys and string values occurring in the audit
payload are plain ASCII identifiers/timestamps). -/
def renderJ : JVal → String
  | .num q => toString q
  | .str s => "\"" ++ s ++ "\""
  | .bool b => cond b "true" "false"
  | .arr xs => "[" ++ renderArr xs ++ "]"
  | .obj kvs => "\x7b" ++ renderObjBody (sortPairs (renderPairs kvs)) ++ "\x7d"

/-- Renders a JSON array body (comma-separated element renderings). -/
def renderArr : List JVal → String
  | [] => ""
  | [x] => renderJ x
  | x :: y :: xs => renderJ x ++ "," ++ renderArr (y :: xs)

/-- Renders each value of an object entry list, keeping keys and order. -/
def renderPairs : List (String × JVal) → List (String × String)
  | [] => []
  | kv :: rest => (kv.1, renderJ kv.2) :: renderPairs rest

end

theorem renderPairs_eq_map (kvs : List (String × JVal)) :
    renderPairs kvs = kvs.map (fun kv => (kv.1, renderJ kv.2)) := by
  induction kvs with
  | nil => rfl
  | cons kv rest ih => simp [renderPairs, ih]

/-- Sorting by key is insensitive to the input order of a duplicate-key-free
pair list: this is the heart of `sort_keys=True` canonicalization. -/
theorem sortPairs_eq_of_perm (l₁ l₂ : List (String × String))
    (hp : l₁.Perm l₂) (hnd : (l₁.map Prod.fst).Nodup) :
    sortPairs l₁ = sortPairs l₂ := by
  have hperm : (sortPairs l₁).Perm (sortPairs l₂) :=
    (List.perm_insertionSort keyLe l₁).trans (hp.trans (List.perm_insertionSort keyLe l₂).symm)
  have hs₁ : (sortPairs l₁).Sorted keyLe := List.sorted_insertionSort keyLe l₁
  have hs₂ : (sortPairs l₂).Sorted keyLe := List.sorted_insertionSort keyLe l₂
  have hnd₁ : ((sortPairs l₁).map Prod.fst).Nodup := by
    have : (sortPairs l₁).Perm l₁ := List.perm_insertionSort keyLe l₁
    exact ((this.map Prod.fst).nodup_iff).mpr hnd
  have hnd₂ : ((sortPairs l₂).map Prod.fst).Nodup := by
    have h2 : (sortPairs l₂).Perm l₂ := List.perm_insertionSort keyLe l₂
    exact ((h2.map Prod.fst).nodup_iff).mpr ((hp.map Prod.fst).nodup_iff.mp hnd)
  have strict : ∀ (l : List (String × String)), l.Sorted keyLe →
      (l.map Prod.fst).Nodup → l.Sorted keyLt := by
    intro l hle hnd'
    have hne : l.Pairwise (fun a b : String × String => a.1 ≠ b.1) :=
      (List.pairwise_map).mp hnd'
    exact (hle.and hne).imp (fun h => lt_of_le_of_ne h.1 h.2)
  exact List.eq_of_perm_of_sorted hperm (strict _ hs₁ hnd₁) (strict _ hs₂ hnd₂)

/-- Rendering a JSON object whose entry list is permuted (with distinct keys)
yields the same canonical string. -/
theorem renderJ_obj_perm (kvs₁ kvs₂ : List (String × JVal))
    (hp : kvs₁.Perm kvs₂) (hnd : (kvs₁.map Prod.fst).Nodup) :
    renderJ (JVal.obj kvs₁) = renderJ (JVal.obj kvs₂) := by
  have hmap : (renderPairs kvs₁).Perm (renderPairs kvs₂) := by
    rw [renderPairs_eq_map, renderPairs_eq_map]
    exact hp.map _
  have hkeys : ((renderPairs kvs₁).map Prod.fst).Nodup := by
    rw [renderPairs_eq_map, List.map_map]
    exact hnd
  simp only [renderJ]
  rw [sortPairs_eq_of_perm _ _ hmap hkeys]

/-! ## Domain value objects (`casper/models.py`) -/

/-- The `SensorType` enum from `casper/models.py`. -/
inductive SensorType where
  | IMU | GNSS | BARO | RADAR | EOIR | RF | LINK
deriving DecidableEq

/-- String value of a `SensorType` member (it is a `str` enum in Python). -/
def SensorType.value : SensorType → String
  | .IMU => "IMU"
  | .GNSS => "GNSS"
  | .BARO => "BARO"
  | .RADAR => "RADAR"
  | .EOIR => "EOIR"
  | .RF => "RF"
  | .LINK => "LINK"

/-- The `SystemState` enum from `casper/models.py`. -/
inductive SystemState where
  | STABLE | TENSE | HIGH_RISK | CRITICAL
deriving DecidableEq

/-- Model of `SensorMeasurement` from `casper/models.py`.  The NumPy vector `z` is a
list of rationals and the covariance `R` a row-major list of rows; `meta` is
the free-form metadata dict embedded as an association list in insertion
order. -/
structure SensorMeasurement where
  tick : Nat
  utc_timestamp : String
  sensor_id : String
  sensor_type : SensorType
  z : List ℚ
  R : List (List ℚ)
  quality : ℚ
  latency_ms : ℚ
  dropped : Bool
  meta : List (String × JVal)

/-- Model of `FusedEstimate` from `casper/models.py`. -/
structure FusedEstimate where
  lat : ℚ
  lon : ℚ
  altitude_m : ℚ
  velocity_mps : ℚ
  heading_deg : ℚ
  threat_index : ℚ
  civ_density : ℚ
  fusion_conf : ℚ
  surprise : ℚ
  sensor_contrib : List (String × ℚ)
  used_meas_count : Nat
deriving DecidableEq

/-- Model of `FusionConfig` from `casper/config.py` (the fields consumed by the fusion,
governance and buffering core). -/
structure FusionConfig where
  dt_seconds : ℚ
  fusion_time_gate_ms : ℚ
  stale_ticks : Nat
  max_telemetry_history : Nat
  max_measurement_history : Nat
  max_audit_history : Nat
  position_fusion_weight : List (String × ℚ)
  clarity_warning_threshold : ℚ
  clarity_critical_threshold : ℚ
  fusion_conf_warning : ℚ
  fusion_conf_critical : ℚ

/-- Default `FusionConfig()` values from `casper/config.py`. -/
def defaultConfig : FusionConfig where
  dt_seconds := 1
  fusion_time_gate_ms := 350
  stale_ticks := 6
  max_telemetry_history := 600
  max_measurement_history := 3000
  max_audit_history := 1000
  position_fusion_weight :=
    [("GNSS", 1), ("EOIR", 8/10), ("RADAR", 9/10), ("BARO", 3/10)]
  clarity_warning_threshold := 75
  clarity_critical_threshold := 65
  fusion_conf_warning := 6/10
  fusion_conf_critical := 4/10

/-- Model of `dict.get(key, default)` on an association list. -/
def dictGet (l : List (String × ℚ)) (k : String) (dflt : ℚ) : ℚ :=
  match l.find? (fun kv => kv.1 == k) with
  | some kv => kv.2
  | none => dflt

/-- Python `dict` insertion semantics: re-inserting an existing key updates
the value in place (keeping the first-insertion position); a new key is
appended. -/
def dictUpsert {β : Type} (acc : List (String × β)) (kv : String × β) :
    List (String × β) :=
  if acc.any (fun p => p.1 == kv.1) then
    acc.map (fun p => if p.1 == kv.1 then (p.1, kv.2) else p)
  else
    acc ++ [kv]

/-- A Python `dict` built from a sequence of key/value pairs (as in the
`sensor_contrib` dict comprehension): later duplicates overwrite earlier
values. -/
def dictOfList {β : Type} (l : List (String × β)) : List (String × β) :=
  l.foldl dictUpsert []

/-- Model of `collections.deque(maxlen := maxlen)` append: the oldest entries
are evicted from the left once capacity is exceeded. -/
def dequeAppend {α : Type} (maxlen : Nat) (xs : List α) (x : α) : List α :=
  let ys := xs ++ [x]
  if maxlen < ys.length then ys.drop (ys.length - maxlen) else ys

/-- Sum of the entries `R[i][i]` for the rows of `R`, starting at column `i`. -/
def diagSum : List (List ℚ) → Nat → ℚ
  | [], _ => 0
  | row :: rest, i => row.getD i 0 + diagSum rest (i + 1)

/-- Trace of a square matrix stored as a list of rows (`np.trace`). -/
def mtrace (R : List (List ℚ)) : ℚ := diagSum R 0

/-- First three components of a measurement vector (`m.z[:3]`); every
position-capable measurement produced by the simulator has exactly three. -/
def z3 (m : SensorMeasurement) : ℚ × ℚ × ℚ :=
  (m.z.getD 0 0, m.z.getD 1 0, m.z.getD 2 0)

/-! ## Time-gated measurement selection (`casper/fusion/engine.py`) -/

/-- Absolute value on `ℚ`, written out as Python's `abs` branch so that it
evaluates on concrete inputs; equal to Mathlib's `|·|` by `qabs_eq_abs`. -/
def qabs (x : ℚ) : ℚ := if x < 0 then -x else x

theorem qabs_eq_abs (x : ℚ) : qabs x = |x| := by
  by_cases h : x < 0
  · simp [qabs, h, abs_of_neg h]
  · simp [qabs, h, abs_of_nonneg (le_of_not_lt h)]

/-- Age in milliseconds of a measurement relative to the current tick:
`abs((tick_delta * dt_seconds * 1000.0) + latency_ms)` from
`FusionEngine.select_measurements`. -/
def age_ms (cfg : FusionConfig) (current_tick : Nat) (m : SensorMeasurement) : ℚ :=
  qabs (((current_tick : ℚ) - (m.tick : ℚ)) * cfg.dt_seconds * 1000 + m.latency_ms)

/-- The scan loop of `FusionEngine.select_measurements` over the
most-recent-first view of the history: dropped measurements are skipped, a
measurement inside the gate is collected, and the first non-dropped
measurement outside the gate terminates the scan. -/
def selectLoop (cfg : FusionConfig) (current_tick : Nat) :
    List SensorMeasurement → List SensorMeasurement
  | [] => []
  | m :: rest =>
    if m.dropped then selectLoop cfg current_tick rest
    else if age_ms cfg current_tick m ≤ cfg.fusion_time_gate_ms then
      m :: selectLoop cfg current_tick rest
    else []

/-- Embedding of `FusionEngine.select_measurements`: iterate the chronological history
most-recent-first (`reversed(history)`). -/
def select_measurements (cfg : FusionConfig) (history : List SensorMeasurement)
    (current_tick : Nat) : List SensorMeasurement :=
  selectLoop cfg current_tick history.reverse

/-! ## Weighted fusion strategy (`casper/fusion/strategies.py`) -/

/-- Embedding of `WeightedFusion._weight`: inverse covariance trace, latency penalty,
clipped quality and sensor-type prior, clamped to be non-negative. -/
def weight (cfg : FusionConfig) (m : SensorMeasurement) : ℚ :=
  let cov_trace := mtrace m.R
  let cov_term := 1 / max cov_trace (1 / 10 ^ 9)
  let latency_term := 1 / (1 + m.latency_ms / 200)
  let quality_term := clip m.quality 0 1
  let type_weight := dictGet cfg.position_fusion_weight m.sensor_type.value (5/10)
  max 0 (cov_term * latency_term * quality_term * type_weight)

/-- The position-capable, non-dropped restriction applied at the top of
`WeightedFusion.fuse`. -/
def posCapable (m : SensorMeasurement) : Bool :=
  (m.sensor_type == .GNSS || m.sensor_type == .EOIR || m.sensor_type == .RADAR)
    && !m.dropped

/-- Embedding of `WeightedFusion._fallback`: the fixed estimate returned when no usable
position-capable measurement remains. -/
def fallbackEstimate : FusedEstimate where
  lat := 0
  lon := 0
  altitude_m := 0
  velocity_mps := 0
  heading_deg := 0
  threat_index := 0
  civ_density := 0
  fusion_conf := 1/10
  surprise := 1
  sensor_contrib := []
  used_meas_count := 0

/-- Embedding of `WeightedFusion.calculate_confidence`: with fewer than two measurements a
fixed `(0.5, 0.5)`; otherwise the weighted RMS dispersion of per-axis scaled
deviations from the fused position, with `surprise = clip(dispersion/2, 0, 1)`
and `fusion_conf = clip(1 - surprise, 0, 1)`.  Returns
`(fusion_conf, surprise)`. -/
def calculate_confidence (sqrt : ℚ → ℚ) (measurements : List SensorMeasurement)
    (weights : List ℚ) (fused : ℚ × ℚ × ℚ) : ℚ × ℚ :=
  if measurements.length < 2 then (1/2, 1/2)
  else
    let terms := (measurements.zip weights).map (fun p =>
      let d1 := ((z3 p.1).1 - fused.1) / (1/1000)
      let d2 := ((z3 p.1).2.1 - fused.2.1) / (1/1000)
      let d3 := ((z3 p.1).2.2 - fused.2.2) / 10
      p.2 * (d1 ^ 2 + d2 ^ 2 + d3 ^ 2))
    let dispersion := sqrt terms.sum
    let surprise := clip (dispersion / 2) 0 1
    let fusion_conf := clip (1 - surprise) 0 1
    (fusion_conf, surprise)

/-- Weight normalization step of `WeightedFusion.fuse`: if the raw weight sum
is negligible (`<= 1e-12`) fall back to a uniform distribution, otherwise
divide by the sum. -/
def normWeights (cfg : FusionConfig) (pos_meas : List SensorMeasurement) : List ℚ :=
  let raw_weights := pos_meas.map (weight cfg)
  let wsum := raw_weights.sum
  if wsum ≤ 1 / 10 ^ 12 then
    List.replicate pos_meas.length ((1 : ℚ) / pos_meas.length)
  else raw_weights.map (· / wsum)

/-- Embedding of `WeightedFusion.fuse`. -/
def weightedFuse (sqrt : ℚ → ℚ) (cfg : FusionConfig)
    (measurements : List SensorMeasurement) : FusedEstimate :=
  let pos_meas := measurements.filter posCapable
  if pos_meas.isEmpty then fallbackEstimate
  else
    let weights := normWeights cfg pos_meas
    let pw := pos_meas.zip weights
    let fused : ℚ × ℚ × ℚ :=
      ((pw.map (fun p => p.2 * (z3 p.1).1)).sum,
       (pw.map (fun p => p.2 * (z3 p.1).2.1)).sum,
       (pw.map (fun p => p.2 * (z3 p.1).2.2)).sum)
    let cs := calculate_confidence sqrt pos_meas weights fused
    let contrib := dictOfList (pw.map (fun p => (p.1.sensor_id, p.2)))
    { lat := fused.1
      lon := fused.2.1
      altitude_m := fused.2.2
      velocity_mps := 0
      heading_deg := 0
      threat_index := 0
      civ_density := 0
      fusion_conf := cs.1
      surprise := cs.2
      sensor_contrib := contrib
      used_meas_count := pos_meas.length }

/-- Embedding of `KalmanFusion.fuse`: deliberately unimplemented; the Python method raises
`NotImplementedError` unconditionally, modelled as an `Except.error`. -/
def kalmanFuse (measurements : List SensorMeasurement) :
    Except String FusedEstimate :=
  Except.error "KalmanFusion is a stub and must be explicitly implemented."

/-- Strategy-name resolution in `FusionEngine.__init__` / `set_strategy`: a
name that is not a key of the strategy dict falls back to `"weighted"`. -/
def resolve_strategy (name : String) : String :=
  if name = "weighted" ∨ name = "kalman" then name else "weighted"

/-- Dispatch of `FusionEngine.fuse` to the active strategy; the weighted
strategy is total, the Kalman stub fails. -/
def strategyFuse (sqrt : ℚ → ℚ) (cfg : FusionConfig) (name : String)
    (measurements : List SensorMeasurement) : Except String FusedEstimate :=
  if resolve_strategy name = "kalman" then kalmanFuse measurements
  else Except.ok (weightedFuse sqrt cfg measurements)

/-! ## Audit builder (`casper/audit/chain.py`) -/

/-- Model of `AuditRecord` from `casper/audit/chain.py`: the stored measurement
summaries and fused summary keep their dict insertion order; `sha256` is the
hex digest of the canonical JSON payload. -/
structure AuditRecord where
  tick : Nat
  utc : String
  used_measurements : List (List (String × JVal))
  fused_output : List (String × JVal)
  sha256 : String

/-- The compact per-measurement summary dict built inside
`build_audit_record` (insertion order of the Python dict literal). -/
def measSummary (m : SensorMeasurement) : List (String × JVal) :=
  [("sensor_id", .str m.sensor_id),
   ("type", .str m.sensor_type.value),
   ("quality", .num m.quality),
   ("latency_ms", .num m.latency_ms),
   ("tick", .num m.tick),
   ("z3", .arr ((m.z.take 3).map JVal.num)),
   ("R_trace", .num (mtrace m.R)),
   ("dropped", .bool m.dropped),
   ("meta", .obj m.meta)]

/-- The compact fused-output summary dict built inside `build_audit_record`. -/
def fusedSummary (fused : FusedEstimate) : List (String × JVal) :=
  [("lat", .num fused.lat),
   ("lon", .num fused.lon),
   ("altitude_m", .num fused.altitude_m),
   ("velocity_mps", .num fused.velocity_mps),
   ("heading_deg", .num fused.heading_deg),
   ("fusion_conf", .num fused.fusion_conf),
   ("surprise", .num fused.surprise),
   ("sensor_contrib", .obj (fused.sensor_contrib.map (fun kv => (kv.1, JVal.num kv.2)))),
   ("used_meas_count", .num fused.used_meas_count)]

/-- The full payload dict `{tick, utc, used, fused}` hashed by
`build_audit_record`. -/
def auditPayload (tick : Nat) (utc : String)
    (used_measurements : List SensorMeasurement) (fused : FusedEstimate) : JVal :=
  .obj
    [("tick", .num tick),
     ("utc", .str utc),
     ("used", .arr (used_measurements.map (fun m => .obj (measSummary m)))),
     ("fused", .obj (fusedSummary fused))]

/-- Embedding of `build_audit_record`: pure construction of the audit entry plus the digest
of the canonical JSON serialization.  `hash` stands for
`hashlib.sha256(raw).hexdigest()`. -/
def build_audit_record (hash : String → String) (tick : Nat) (utc : String)
    (used_measurements : List SensorMeasurement) (fused : FusedEstimate) :
    AuditRecord where
  tick := tick
  utc := utc
  used_measurements := used_measurements.map measSummary
  fused_output := fusedSummary fused
  sha256 := hash (renderJ (auditPayload tick utc used_measurements fused))

/-! ## Governance calculator (`casper/governance/clarity_risk.py`) -/

/-- The flight-envelope fields consumed by `ClarityRiskCalculator.compute`
(from the static `ENVELOPES` preset table in `casper/presets.py`). -/
structure EnvelopePreset where
  max_q_kpa : ℚ
  max_thermal_index : ℚ

/-- The physical signals handed to `ClarityRiskCalculator.compute` by the
step engine (drawn from the generated ground truth). -/
structure PhysicalState where
  q_kpa : ℚ
  thermal_index : ℚ
  threat_index : ℚ

/-- Envelope pressure: `0.6 * q_norm + 0.4 * thermal_norm`. -/
def envelope_pressure (envp : EnvelopePreset) (phys : PhysicalState) : ℚ :=
  let q_u := clip (phys.q_kpa / envp.max_q_kpa) 0 (16/10)
  let t_u := clip (phys.thermal_index / envp.max_thermal_index) 0 (18/10)
  (6/10) * q_u + (4/10) * t_u

/-- Raw clarity before smoothing: physical clarity clipped to `[0.55, 1.0]`
then multiplicatively penalized by fusion confidence and surprise. -/
def raw_clarity (envp : EnvelopePreset) (phys : PhysicalState)
    (fused : FusedEstimate) : ℚ :=
  let pressure := envelope_pressure envp phys
  let threat_u := clip (phys.threat_index / 100) 0 1
  let raw := clip (1 - pressure - (3/10) * threat_u) (55/100) 1
  let raw := raw * clip ((70/100) + (30/100) * fused.fusion_conf) 0 1
  raw * clip (1 - (30/100) * fused.surprise) 0 1

/-- The EMA update `clarity_ema = 0.15 * raw + 0.85 * clarity_ema` performed
by `ClarityRiskCalculator.compute`. -/
def clarity_ema_update (raw ema : ℚ) : ℚ := (15/100) * raw + (85/100) * ema

/-- Iterated EMA updates with a fixed raw-clarity input. -/
def clarity_ema_iter (raw : ℚ) : Nat → ℚ → ℚ
  | 0, ema => ema
  | n + 1, ema => clarity_ema_iter raw n (clarity_ema_update raw ema)

/-- Result bundle of `ClarityRiskCalculator.compute`; `ema'` is the value the
calculator stores back into its own `clarity_ema` attribute. -/
structure GovOutput where
  clarity : ℚ
  risk : ℚ
  predicted_risk : ℚ
  sys_state : SystemState
  pressure : ℚ
  ema' : ℚ

/-- Embedding of `ClarityRiskCalculator.compute`.  Here `ema` is the calculator's persisted
`clarity_ema` attribute on entry; the returned `ema'` is its value on exit.
The `EngineState` argument of the Python method is consulted only for the
envelope name, resolved here to `envp`. -/
def governance_compute (envp : EnvelopePreset) (phys : PhysicalState)
    (fused : FusedEstimate) (ema : ℚ) : GovOutput :=
  let pressure := envelope_pressure envp phys
  let raw := raw_clarity envp phys fused
  let ema' := clarity_ema_update raw ema
  let clarity := ema' * 100
  let risk := clip (pressure * 60 + (100 - clarity) * (45/100)
      + (1 - fused.fusion_conf) * 18 + fused.surprise * 14) 0 100
  let pred := clip (risk + 8 * (pressure - 8/10)) 0 100
  let sys_state :=
    if clarity ≥ 90 ∧ risk < 30 then SystemState.STABLE
    else if clarity ≥ 80 then SystemState.TENSE
    else if clarity ≥ 65 then SystemState.HIGH_RISK
    else SystemState.CRITICAL
  { clarity := clarity, risk := risk, predicted_risk := pred,
    sys_state := sys_state, pressure := pressure, ema' := ema' }

/-! ## Engine state and step engine (`casper/state.py`, `casper/step_engine.py`) -/

/-- The ground-truth sample produced by `StepEngine._generate_truth` (a seeded
bounded random walk; its draws are inputs here).  Only the fields consumed by
governance and telemetry are kept. -/
structure Truth where
  mach : ℚ
  velocity_mps : ℚ
  altitude_m : ℚ
  q_kpa : ℚ
  thermal_index : ℚ
  g_load : ℚ
  lat : ℚ
  lon : ℚ
  threat_index : ℚ
  civ_density : ℚ
  nav_drift : ℚ

/-- The per-tick `Telemetry` snapshot (`casper/models.py`), restricted to the
timing, physical, navigation, governance and fusion-health fields; the
remaining per-sensor convenience fields (`link_latency_ms`, console-contract
factors, ...) are lookups into the same measurement list and are not
referenced by any verified claim. -/
structure Telemetry where
  tick : Nat
  utc_timestamp : String
  mission_time_s : ℚ
  mach : ℚ
  velocity_mps : ℚ
  altitude_m : ℚ
  q_kpa : ℚ
  thermal_index : ℚ
  g_load : ℚ
  lat : ℚ
  lon : ℚ
  threat_index : ℚ
  civ_density : ℚ
  nav_drift : ℚ
  clarity : ℚ
  risk : ℚ
  predicted_risk : ℚ
  state : SystemState
  envelope_pressure : ℚ
  fusion_conf : ℚ
  fusion_surprise : ℚ

/-- Model of `EngineState` from `casper/state.py`: clock, scenario selection, bounded
history buffers, fusion output, governance memory.  The `ao`/`terrain`
visualization cache, `run_id` and mission-stage bookkeeping fields are not
referenced by any verified claim and are omitted. -/
structure EngineState where
  tick : Nat
  mission_time_s : ℚ
  rng_seed : Int
  env_name : String
  envelope_name : String
  clarity_ema : ℚ
  history : List Telemetry
  meas_history : List SensorMeasurement
  audit_chain : List AuditRecord
  fused : Option FusedEstimate
  last_seen_tick : List (String × Nat)
  fusion_strategy_name : String

/-- Embedding of `EngineState.reset`: zero the clock, restore the state-side EMA field to
`0.9`, clear every buffer and the fused output.  (The optional reseeding and
the wall-clock `run_id` stamp do not affect any verified claim.) -/
def EngineState.reset (s : EngineState) : EngineState :=
  { s with
    tick := 0
    mission_time_s := 0
    clarity_ema := 9/10
    history := []
    meas_history := []
    audit_chain := []
    last_seen_tick := []
    fused := none }

/-- The measurement-append loop at the top of `StepEngine.step`: each fresh
measurement is pushed into the bounded history and its sensor's last-seen
tick is recorded. -/
def stepPush (cfg : FusionConfig) (st : EngineState)
    (m : SensorMeasurement) : EngineState :=
  { st with
    meas_history := dequeAppend cfg.max_measurement_history st.meas_history m
    last_seen_tick := dictUpsert st.last_seen_tick (m.sensor_id, m.tick) }

def stepAccum (cfg : FusionConfig) (s : EngineState)
    (meas : List SensorMeasurement) : EngineState :=
  meas.foldl (stepPush cfg) s

/-- Embedding of `StepEngine.step`.  The wall-clock timestamp produced by
`EngineState.utc()` is the input `now`; the seeded random draws of
`_generate_truth` and `SensorSimulator.simulate_all` are the inputs `truth`
and `meas` (all measurements of the tick, in simulation order); `envp` is
`ENVELOPES[state.envelope_name]`.  `calcEma` is the `clarity_ema` attribute
of the `ClarityRiskCalculator` owned by the step engine.  Python mutates the
state in place, so a raised fusion error leaves the caller holding the state
as mutated up to the raise point: the error value carries that state. -/
def StepEngine.step (cfg : FusionConfig) (sqrt : ℚ → ℚ) (envp : EnvelopePreset)
    (now : String) (hash : String → String) (truth : Truth)
    (meas : List SensorMeasurement) (s : EngineState) (calcEma : ℚ) :
    Except (String × EngineState × ℚ) (EngineState × ℚ) :=
  let s1 := stepAccum cfg s meas
  match strategyFuse sqrt cfg s.fusion_strategy_name
      (select_measurements cfg s1.meas_history (s.tick + 1)) with
  | .error e => .error (e, s1, calcEma)
  | .ok fused =>
    let s2 := { s1 with fused := some fused }
    let used_meas := select_measurements cfg s2.meas_history (s.tick + 1)
    let audit := build_audit_record hash (s.tick + 1) now used_meas fused
    let s3 := { s2 with audit_chain := dequeAppend cfg.max_audit_history s2.audit_chain audit }
    let phys : PhysicalState :=
      { q_kpa := truth.q_kpa, thermal_index := truth.thermal_index,
        threat_index := truth.threat_index }
    let gov := governance_compute envp phys fused calcEma
    let tel : Telemetry :=
      { tick := s.tick + 1
        utc_timestamp := now
        mission_time_s := s.mission_time_s + cfg.dt_seconds
        mach := truth.mach
        velocity_mps := truth.velocity_mps
        altitude_m := fused.altitude_m
        q_kpa := truth.q_kpa
        thermal_index := truth.thermal_index
        g_load := truth.g_load
        lat := fused.lat
        lon := fused.lon
        threat_index := truth.threat_index
        civ_density := truth.civ_density
        nav_drift := truth.nav_drift
        clarity := gov.clarity
        risk := gov.risk
        predicted_risk := gov.predicted_risk
        state := gov.sys_state
        envelope_pressure := gov.pressure
        fusion_conf := fused.fusion_conf
        fusion_surprise := fused.surprise }
    .ok ({ s3 with
            tick := tel.tick
            mission_time_s := tel.mission_time_s
            history := dequeAppend cfg.max_telemetry_history s3.history tel },
         gov.ema')

/-! ## Helper lemmas -/

theorem clip_le_hi (x lo hi : ℚ) : clip x lo hi ≤ hi := min_le_left hi _

theorem le_clip (x lo hi : ℚ) (h : lo ≤ hi) : lo ≤ clip x lo hi :=
  le_min h (le_max_left lo x)

theorem clip_eq_of_mem (x lo hi : ℚ) (h1 : lo ≤ x) (h2 : x ≤ hi) : clip x lo hi = x := by
  unfold clip
  rw [max_eq_right h1, min_eq_right h2]

/-- The selection loop is exactly: drop the dropped measurements, then take
the within-gate prefix.  This is the formal content of the early-exit scan. -/
theorem selectLoop_eq_takeWhile (cfg : FusionConfig) (t : Nat)
    (l : List SensorMeasurement) :
    selectLoop cfg t l = (l.filter (fun m => !m.dropped)).takeWhile
      (fun m => decide (age_ms cfg t m ≤ cfg.fusion_time_gate_ms)) := by
  induction l with
  | nil => rfl
  | cons m rest ih =>
    by_cases hd : m.dropped
    · simp [selectLoop, hd, ih]
    · by_cases hg : age_ms cfg t m ≤ cfg.fusion_time_gate_ms
      · simp [selectLoop, hd, hg, ih, List.takeWhile]
      · simp [selectLoop, hd, hg, List.takeWhile]

/-- Soundness of the time gate: every selected measurement is non-dropped and
within the (inclusive) gate. -/
theorem mem_select_measurements (cfg : FusionConfig)
    (history : List SensorMeasurement) (t : Nat) (m : SensorMeasurement)
    (hm : m ∈ select_measurements cfg history t) :
    m.dropped = false ∧ age_ms cfg t m ≤ cfg.fusion_time_gate_ms := by
  unfold select_measurements at hm
  rw [selectLoop_eq_takeWhile] at hm
  have h1 := List.mem_takeWhile_imp hm
  have h2 : m ∈ history.reverse.filter (fun m => !m.dropped) :=
    (List.takeWhile_sublist _).subset hm
  have h3 := (List.mem_filter.mp h2).2
  exact ⟨by simpa using h3, by simpa using h1⟩

theorem sum_map_div (l : List ℚ) (s : ℚ) : (l.map (· / s)).sum = l.sum / s := by
  induction l with
  | nil => simp
  | cons x xs ih => simp [ih, add_div]

theorem normWeights_length (cfg : FusionConfig) (pos : List SensorMeasurement) :
    (normWeights cfg pos).length = pos.length := by
  unfold normWeights
  dsimp only
  split <;> simp

/-- The normalized weight vector always sums to exactly 1 on a non-empty
measurement list: both the uniform fallback branch and the division branch
normalize exactly. -/
theorem normWeights_sum_one (cfg : FusionConfig) (pos : List SensorMeasurement)
    (h : pos ≠ []) : (normWeights cfg pos).sum = 1 := by
  unfold normWeights
  dsimp only
  split
  next hc =>
    rw [List.sum_replicate, nsmul_eq_mul]
    have hlen : (pos.length : ℚ) ≠ 0 := by
      exact_mod_cast (List.length_pos.mpr h).ne'
    field_simp
  next hc =>
    rw [sum_map_div]
    have hs : (pos.map (weight cfg)).sum ≠ 0 := by
      intro h0
      exact hc (by rw [h0]; norm_num)
    field_simp

/-- Upserting a key absent from the accumulator appends, so folding a
duplicate-free pair list over `dictUpsert` reproduces the list. -/
theorem foldl_dictUpsert_of_nodup {β : Type} (l acc : List (String × β))
    (h : ((acc ++ l).map Prod.fst).Nodup) : l.foldl dictUpsert acc = acc ++ l := by
  induction l generalizing acc with
  | nil => simp
  | cons kv rest ih =>
    have hsplit := h
    rw [List.map_append, List.nodup_append] at hsplit
    have hnotin : kv.1 ∉ acc.map Prod.fst := fun hmem =>
      hsplit.2.2 hmem (by simp)
    have hany : acc.any (fun p => p.1 == kv.1) = false := by
      rw [List.any_eq_false]
      intro p hp hbeq
      exact hnotin (by
        have : p.1 = kv.1 := by simpa using hbeq
        exact this ▸ List.mem_map_of_mem Prod.fst hp)
    have hstep : dictUpsert acc kv = acc ++ [kv] := by
      unfold dictUpsert
      rw [hany]
      simp
    rw [List.foldl_cons, hstep, ih (acc ++ [kv]) (by simpa using h)]
    simp

/-- A Python dict built from pairs with pairwise-distinct keys is just the
pair list itself. -/
theorem dictOfList_eq_self {β : Type} (l : List (String × β))
    (h : (l.map Prod.fst).Nodup) : dictOfList l = l := by
  unfold dictOfList
  simpa using foldl_dictUpsert_of_nodup l [] (by simpa using h)

/-- Summing `p.2 * f p.1` over a zip whose second component has matching
length, when `f` is constant on the first component. -/
theorem zip_sum_mul_const (pos : List SensorMeasurement) (ws : List ℚ)
    (f : SensorMeasurement → ℚ) (c : ℚ) (hlen : ws.length = pos.length)
    (hc : ∀ m ∈ pos, f m = c) :
    ((pos.zip ws).map (fun p => p.2 * f p.1)).sum = ws.sum * c := by
  induction pos generalizing ws with
  | nil =>
    have : ws = [] := List.eq_nil_of_length_eq_zero hlen
    simp [this]
  | cons m rest ih =>
    cases ws with
    | nil => simp at hlen
    | cons w wt =>
      have h1 : f m = c := hc m (by simp)
      have h2 : ∀ x ∈ rest, f x = c := fun x hx => hc x (by simp [hx])
      simp only [List.zip_cons_cons, List.map_cons, List.sum_cons, h1,
        ih wt (by simpa using hlen) h2]
      ring

/-- One EMA update moves the distance to the fixed point by a factor 0.85. -/
theorem clarity_ema_update_sub (r e : ℚ) :
    clarity_ema_update r e - r = (17/20) * (e - r) := by
  unfold clarity_ema_update
  ring

/-- Closed form of the iterated EMA distance to its fixed point. -/
theorem clarity_ema_iter_sub (r : ℚ) (n : Nat) (e : ℚ) :
    clarity_ema_iter r n e - r = (17/20) ^ n * (e - r) := by
  induction n generalizing e with
  | zero => simp [clarity_ema_iter]
  | succ n ih =>
    rw [clarity_ema_iter, ih, clarity_ema_update_sub]
    ring

/-- The iterated EMA reaches any positive tolerance of its fixed point. -/
theorem clarity_ema_iter_converges (r e ε : ℚ) (hε : 0 < ε) :
    ∃ N, ∀ n, N ≤ n → |clarity_ema_iter r n e - r| ≤ ε := by
  rcases eq_or_ne e r with he | he
  · exact ⟨0, fun n _ => by simp [clarity_ema_iter_sub, he, le_of_lt hε]⟩
  · have hd : 0 < |e - r| := abs_pos.mpr (sub_ne_zero.mpr he)
    obtain ⟨N, hN⟩ :=
      exists_pow_lt_of_lt_one (div_pos hε hd) (by norm_num : (17/20 : ℚ) < 1)
    refine ⟨N, fun n hn => ?_⟩
    rw [clarity_ema_iter_sub, abs_mul, abs_pow]
    have h1 : |(17/20 : ℚ)| = 17/20 := by norm_num
    rw [h1]
    have h2 : (17/20 : ℚ) ^ n ≤ (17/20) ^ N :=
      pow_le_pow_of_le_one (by norm_num) (by norm_num) hn
    calc (17/20 : ℚ) ^ n * |e - r|
        ≤ (17/20) ^ N * |e - r| := mul_le_mul_of_nonneg_right h2 (abs_nonneg _)
      _ ≤ ε / |e - r| * |e - r| := mul_le_mul_of_nonneg_right (le_of_lt hN) (abs_nonneg _)
      _ = ε := div_mul_cancel₀ ε hd.ne'

/-- Bounds of `calculate_confidence`: both components always land in [0,1],
whatever the square-root function does. -/
theorem calculate_confidence_bounds (sqrt : ℚ → ℚ)
    (ms : List SensorMeasurement) (ws : List ℚ) (fz : ℚ × ℚ × ℚ) :
    0 ≤ (calculate_confidence sqrt ms ws fz).1 ∧
      (calculate_confidence sqrt ms ws fz).1 ≤ 1 ∧
      0 ≤ (calculate_confidence sqrt ms ws fz).2 ∧
      (calculate_confidence sqrt ms ws fz).2 ≤ 1 := by
  unfold calculate_confidence
  split
  · norm_num
  · refine ⟨le_clip _ _ _ (by norm_num), clip_le_hi _ _ _,
      le_clip _ _ _ (by norm_num), clip_le_hi _ _ _⟩

/-- With fewer than two measurements `calculate_confidence` is the fixed
pair `(0.5, 0.5)`. -/
theorem calculate_confidence_small (sqrt : ℚ → ℚ)
    (ms : List SensorMeasurement) (ws : List ℚ) (fz : ℚ × ℚ × ℚ)
    (h : ms.length < 2) : calculate_confidence sqrt ms ws fz = (1/2, 1/2) := by
  unfold calculate_confidence
  rw [if_pos h]

/-- Zero dispersion: if every measurement's position triple equals the fused
triple, the dispersion sum is zero, so surprise is 0 and confidence is 1. -/
theorem calculate_confidence_zero_dispersion (sqrt : ℚ → ℚ)
    (ms : List SensorMeasurement) (ws : List ℚ) (fz : ℚ × ℚ × ℚ)
    (hlen : 2 ≤ ms.length) (hz : ∀ m ∈ ms, z3 m = fz) (hs : sqrt 0 = 0) :
    calculate_confidence sqrt ms ws fz = (1, 0) := by
  unfold calculate_confidence
  rw [if_neg (by omega)]
  have hterms : ((ms.zip ws).map (fun p =>
      let d1 := ((z3 p.1).1 - fz.1) / (1/1000)
      let d2 := ((z3 p.1).2.1 - fz.2.1) / (1/1000)
      let d3 := ((z3 p.1).2.2 - fz.2.2) / 10
      p.2 * (d1 ^ 2 + d2 ^ 2 + d3 ^ 2))).sum = 0 := by
    apply List.sum_eq_zero
    intro x hx
    obtain ⟨p, hp, hpx⟩ := List.mem_map.mp hx
    have hmem : p.1 ∈ ms := (List.of_mem_zip hp).1
    have h0 : z3 p.1 = fz := hz p.1 hmem
    rw [← hpx]
    simp [h0]
  dsimp only at hterms ⊢
  rw [hterms, hs]
  norm_num [clip]

/-- A bounded append with positive capacity always keeps the new element at
the tail. -/
theorem dequeAppend_getLast (maxlen : Nat) (xs : List α) (x : α)
    (h : 0 < maxlen) : (dequeAppend maxlen xs x).getLast? = some x := by
  unfold dequeAppend
  dsimp only
  split
  next hlen =>
    have hk : (xs ++ [x]).length - maxlen ≤ xs.length := by
      simp only [List.length_append, List.length_cons, List.length_nil]
      omega
    rw [List.drop_append_of_le_length hk]
    exact List.getLast?_concat _
  next hlen => exact List.getLast?_concat _

/-- The accumulation loop changes only the measurement history and the
last-seen map; the two changed fields factor into independent folds. -/
theorem stepAccum_spec (cfg : FusionConfig) (s : EngineState)
    (meas : List SensorMeasurement) :
    (stepAccum cfg s meas).tick = s.tick ∧
    (stepAccum cfg s meas).mission_time_s = s.mission_time_s ∧
    (stepAccum cfg s meas).rng_seed = s.rng_seed ∧
    (stepAccum cfg s meas).env_name = s.env_name ∧
    (stepAccum cfg s meas).envelope_name = s.envelope_name ∧
    (stepAccum cfg s meas).clarity_ema = s.clarity_ema ∧
    (stepAccum cfg s meas).history = s.history ∧
    (stepAccum cfg s meas).audit_chain = s.audit_chain ∧
    (stepAccum cfg s meas).fused = s.fused ∧
    (stepAccum cfg s meas).fusion_strategy_name = s.fusion_strategy_name ∧
    (stepAccum cfg s meas).meas_history =
      meas.foldl (dequeAppend cfg.max_measurement_history) s.meas_history ∧
    (stepAccum cfg s meas).last_seen_tick =
      meas.foldl (fun d m => dictUpsert d (m.sensor_id, m.tick)) s.last_seen_tick := by
  induction meas generalizing s with
  | nil => simp [stepAccum]
  | cons m rest ih =>
    simpa [stepAccum, stepPush, List.foldl_cons] using ih (stepPush cfg s m)

/-- Frame condition of a failed step: the Python exception escapes after the
measurement loop but before any other state write, so the error-side state
has new measurement-history/last-seen entries and nothing else changed, and
the calculator memory is untouched. -/
theorem step_error_spec (cfg : FusionConfig) (sqrt : ℚ → ℚ)
    (envp : EnvelopePreset) (now : String) (hash : String → String)
    (truth : Truth) (meas : List SensorMeasurement) (s : EngineState)
    (calcEma : ℚ) (e : String) (s' : EngineState) (c' : ℚ)
    (h : StepEngine.step cfg sqrt envp now hash truth meas s calcEma =
      .error (e, s', c')) :
    s' = stepAccum cfg s meas ∧ c' = calcEma := by
  unfold StepEngine.step at h
  dsimp only at h
  split at h
  · rename_i heq
    rcases h with ⟨⟩
    exact ⟨rfl, rfl⟩
  · exact absurd h (by simp)

/-- Analysis of a successful step: the resulting state and calculator memory
are the ones assembled from the fused estimate, the audit record and the
governance output. -/
theorem step_ok_spec (cfg : FusionConfig) (sqrt : ℚ → ℚ)
    (envp : EnvelopePreset) (now : String) (hash : String → String)
    (truth : Truth) (meas : List SensorMeasurement) (s : EngineState)
    (calcEma : ℚ) (s' : EngineState) (c' : ℚ)
    (h : StepEngine.step cfg sqrt envp now hash truth meas s calcEma =
      .ok (s', c')) :
    ∃ fused, strategyFuse sqrt cfg s.fusion_strategy_name
        (select_measurements cfg (stepAccum cfg s meas).meas_history (s.tick + 1)) =
        .ok fused ∧
      c' = (governance_compute envp
        { q_kpa := truth.q_kpa, thermal_index := truth.thermal_index,
          threat_index := truth.threat_index } fused calcEma).ema' ∧
      s'.tick = s.tick + 1 ∧
      s'.mission_time_s = s.mission_time_s + cfg.dt_seconds ∧
      s'.clarity_ema = s.clarity_ema ∧
      s'.fused = some fused ∧
      (s'.audit_chain = dequeAppend cfg.max_audit_history
        (stepAccum cfg s meas).audit_chain
        (build_audit_record hash (s.tick + 1) now
          (select_measurements cfg (stepAccum cfg s meas).meas_history (s.tick + 1))
          fused)) ∧
      ∃ tel, s'.history = dequeAppend cfg.max_telemetry_history
          (stepAccum cfg s meas).history tel ∧
        tel.utc_timestamp = now ∧
        tel.clarity = (governance_compute envp
          { q_kpa := truth.q_kpa, thermal_index := truth.thermal_index,
            threat_index := truth.threat_index } fused calcEma).clarity := by
  unfold StepEngine.step at h
  dsimp only at h
  split at h
  · exact absurd h (by simp)
  · rename_i fused heq
    rcases h with ⟨⟩
    exact ⟨fused, heq, rfl, rfl, rfl, (stepAccum_spec cfg s meas).2.2.2.2.2.1,
      rfl, rfl, ⟨_, rfl, rfl, rfl⟩⟩

theorem stepPush_ema (cfg : FusionConfig) (s : EngineState)
    (m : SensorMeasurement) (a : ℚ) :
    stepPush cfg { s with clarity_ema := a } m =
      { stepPush cfg s m with clarity_ema := a } := rfl

theorem stepAccum_ema (cfg : FusionConfig) (s : EngineState)
    (meas : List SensorMeasurement) (a : ℚ) :
    stepAccum cfg { s with clarity_ema := a } meas =
      { stepAccum cfg s meas with clarity_ema := a } := by
  induction meas generalizing s with
  | nil => rfl
  | cons m rest ih =>
    simp only [stepAccum, List.foldl_cons] at *
    rw [stepPush_ema, ih]

/-- The step function never reads or writes the `EngineState.clarity_ema`
field: overriding it beforehand only carries the override through. -/
theorem step_state_ema_irrelevant (cfg : FusionConfig) (sqrt : ℚ → ℚ)
    (envp : EnvelopePreset) (now : String) (hash : String → String)
    (truth : Truth) (meas : List SensorMeasurement) (s : EngineState)
    (calcEma a : ℚ) :
    StepEngine.step cfg sqrt envp now hash truth meas
        { s with clarity_ema := a } calcEma =
      match StepEngine.step cfg sqrt envp now hash truth meas s calcEma with
      | .ok (t, c) => .ok ({ t with clarity_ema := a }, c)
      | .error (e, t, c) => .error (e, { t with clarity_ema := a }, c) := by
  unfold StepEngine.step
  dsimp only
  rw [stepAccum_ema]
  cases strategyFuse sqrt cfg s.fusion_strategy_name
      (select_measurements cfg (stepAccum cfg s meas).meas_history (s.tick + 1)) with
  | error e => rfl
  | ok fused => rfl

theorem weightedFuse_of_no_usable (sqrt : ℚ → ℚ) (cfg : FusionConfig)
    (ms : List SensorMeasurement) (h : ms.filter posCapable = []) :
    weightedFuse sqrt cfg ms = fallbackEstimate := by
  unfold weightedFuse
  dsimp only
  rw [if_pos (by simp [h])]

theorem weightedFuse_contrib (sqrt : ℚ → ℚ) (cfg : FusionConfig)
    (ms : List SensorMeasurement) (h : ms.filter posCapable ≠ []) :
    (weightedFuse sqrt cfg ms).sensor_contrib =
      dictOfList (((ms.filter posCapable).zip
        (normWeights cfg (ms.filter posCapable))).map
          (fun p => (p.1.sensor_id, p.2))) := by
  unfold weightedFuse
  dsimp only
  rw [if_neg (by simpa using h)]

theorem weightedFuse_conf_surprise (sqrt : ℚ → ℚ) (cfg : FusionConfig)
    (ms : List SensorMeasurement) (h : ms.filter posCapable ≠ []) :
    ((weightedFuse sqrt cfg ms).fusion_conf, (weightedFuse sqrt cfg ms).surprise) =
      calculate_confidence sqrt (ms.filter posCapable)
        (normWeights cfg (ms.filter posCapable))
        ((((ms.filter posCapable).zip (normWeights cfg (ms.filter posCapable))).map
            (fun p => p.2 * (z3 p.1).1)).sum,
         (((ms.filter posCapable).zip (normWeights cfg (ms.filter posCapable))).map
            (fun p => p.2 * (z3 p.1).2.1)).sum,
         (((ms.filter posCapable).zip (normWeights cfg (ms.filter posCapable))).map
            (fun p => p.2 * (z3 p.1).2.2)).sum) := by
  unfold weightedFuse
  dsimp only
  rw [if_neg (by simpa using h)]

/-- With pairwise-distinct sensor ids among the usable measurements, the
`sensor_contrib` dict keeps every entry, so its values sum to exactly 1. -/
theorem contrib_sum_one (sqrt : ℚ → ℚ) (cfg : FusionConfig)
    (ms : List SensorMeasurement) (hne : ms.filter posCapable ≠ [])
    (hnd : ((ms.filter posCapable).map SensorMeasurement.sensor_id).Nodup) :
    (((weightedFuse sqrt cfg ms).sensor_contrib).map Prod.snd).sum = 1 := by
  have hlen : (normWeights cfg (ms.filter posCapable)).length =
      (ms.filter posCapable).length := normWeights_length cfg _
  rw [weightedFuse_contrib sqrt cfg ms hne]
  have hfst : ((ms.filter posCapable).zip
      (normWeights cfg (ms.filter posCapable))).map Prod.fst =
      ms.filter posCapable :=
    List.map_fst_zip _ _ (le_of_eq hlen.symm)
  have hkeys : (((ms.filter posCapable).zip
      (normWeights cfg (ms.filter posCapable))).map
        (fun p => (p.1.sensor_id, p.2))).map Prod.fst =
      (ms.filter posCapable).map SensorMeasurement.sensor_id := by
    rw [List.map_map]
    have hcomp : (Prod.fst ∘ fun p : SensorMeasurement × ℚ => (p.1.sensor_id, p.2)) =
        (SensorMeasurement.sensor_id ∘ Prod.fst) := rfl
    rw [hcomp, ← List.map_map, hfst]
  rw [dictOfList_eq_self _ (by rw [hkeys]; exact hnd)]
  have hsnd : (((ms.filter posCapable).zip
      (normWeights cfg (ms.filter posCapable))).map
        (fun p => (p.1.sensor_id, p.2))).map Prod.snd =
      normWeights cfg (ms.filter posCapable) := by
    rw [List.map_map]
    have hcomp : (Prod.snd ∘ fun p : SensorMeasurement × ℚ => (p.1.sensor_id, p.2)) =
        (Prod.snd : SensorMeasurement × ℚ → ℚ) := rfl
    rw [hcomp]
    exact List.map_snd_zip _ _ (le_of_eq hlen)
  rw [hsnd]
  exact normWeights_sum_one cfg _ hne

/-- When every usable measurement carries the same `z` vector, the fused
triple is that vector's first three components. -/
theorem fused_triple_of_const (cfg : FusionConfig)
    (pos : List SensorMeasurement) (hne : pos ≠ []) (v : ℚ × ℚ × ℚ)
    (hz : ∀ m ∈ pos, z3 m = v) :
    (((pos.zip (normWeights cfg pos)).map (fun p => p.2 * (z3 p.1).1)).sum,
     ((pos.zip (normWeights cfg pos)).map (fun p => p.2 * (z3 p.1).2.1)).sum,
     ((pos.zip (normWeights cfg pos)).map (fun p => p.2 * (z3 p.1).2.2)).sum) = v := by
  have hlen : (normWeights cfg pos).length = pos.length := normWeights_length cfg pos
  have hsum : (normWeights cfg pos).sum = 1 := normWeights_sum_one cfg pos hne
  have h1 := zip_sum_mul_const pos (normWeights cfg pos) (fun m => (z3 m).1) v.1
    hlen (fun m hm => by show (z3 m).1 = v.1; rw [hz m hm])
  have h2 := zip_sum_mul_const pos (normWeights cfg pos) (fun m => (z3 m).2.1) v.2.1
    hlen (fun m hm => by show (z3 m).2.1 = v.2.1; rw [hz m hm])
  have h3 := zip_sum_mul_const pos (normWeights cfg pos) (fun m => (z3 m).2.2) v.2.2
    hlen (fun m hm => by show (z3 m).2.2 = v.2.2; rw [hz m hm])
  rw [h1, h2, h3, hsum]
  simp

/-- Comma join of rendered strings, the shape `renderArr` produces. -/
def joinComma : List String → String
  | [] => ""
  | [x] => x
  | x :: y :: xs => x ++ "," ++ joinComma (y :: xs)

theorem renderArr_eq_join (l : List JVal) :
    renderArr l = joinComma (l.map renderJ) := by
  induction l with
  | nil => rfl
  | cons x xs ih =>
    cases xs with
    | nil => simp [renderArr, joinComma]
    | cons y ys => simp [renderArr, joinComma, ih]

/-- Permuting the (duplicate-free) metadata entries of one used measurement
does not change the canonical payload serialization, hence not the digest
for any hash function. -/
theorem render_payload_meta_perm (tick : Nat) (utc : String)
    (fused : FusedEstimate) (pre post : List SensorMeasurement)
    (m : SensorMeasurement) (meta₁ meta₂ : List (String × JVal))
    (hp : meta₁.Perm meta₂) (hnd : (meta₁.map Prod.fst).Nodup) :
    renderJ (auditPayload tick utc (pre ++ { m with meta := meta₁ } :: post) fused) =
      renderJ (auditPayload tick utc (pre ++ { m with meta := meta₂ } :: post) fused) := by
  have hmeta : renderJ (JVal.obj meta₁) = renderJ (JVal.obj meta₂) :=
    renderJ_obj_perm meta₁ meta₂ hp hnd
  have hsummary : renderJ (JVal.obj (measSummary { m with meta := meta₁ })) =
      renderJ (JVal.obj (measSummary { m with meta := meta₂ })) := by
    simp only [renderJ]
    rw [renderPairs_eq_map, renderPairs_eq_map]
    simp only [measSummary, List.map_cons, List.map_nil]
    rw [hmeta]
  have hused : renderJ (JVal.arr ((pre ++ { m with meta := meta₁ } :: post).map
        (fun mm => JVal.obj (measSummary mm)))) =
      renderJ (JVal.arr ((pre ++ { m with meta := meta₂ } :: post).map
        (fun mm => JVal.obj (measSummary mm)))) := by
    simp only [renderJ]
    rw [renderArr_eq_join, renderArr_eq_join]
    have hlist : ((pre ++ { m with meta := meta₁ } :: post).map
          (fun mm => JVal.obj (measSummary mm))).map renderJ =
        ((pre ++ { m with meta := meta₂ } :: post).map
          (fun mm => JVal.obj (measSummary mm))).map renderJ := by
      simp only [List.map_append, List.map_cons]
      rw [hsummary]
    rw [hlist]
  unfold auditPayload
  simp only [renderJ]
  rw [renderPairs_eq_map, renderPairs_eq_map]
  simp only [List.map_cons, List.map_nil]
  rw [hused]

/-! ## Concrete fixtures for examples, witnesses and counterexamples -/

/-- The "Nominal Demo Flight" envelope limits from `casper/presets.py`. -/
def nominalEnvelope : EnvelopePreset where
  max_q_kpa := 650
  max_thermal_index := 78/100

/-- A benign ground-truth sample (concrete values within the documented
ranges). -/
def truth0 : Truth where
  mach := 8/10
  velocity_mps := 236
  altitude_m := 8000
  q_kpa := 130
  thermal_index := 1/2
  g_load := 1
  lat := 47
  lon := 8
  threat_index := 40
  civ_density := 3/10
  nav_drift := 5

/-- A GNSS measurement at tick 5; under the default config at current tick 5
its age equals its latency. -/
def gnssAt (lat_ms : ℚ) : SensorMeasurement where
  tick := 5
  utc_timestamp := "2026-01-01T00:00:00Z"
  sensor_id := "GNSS_A"
  sensor_type := .GNSS
  z := [47, 8, 3000]
  R := [[1, 0, 0], [0, 1, 0], [0, 0, 1]]
  quality := 9/10
  latency_ms := lat_ms
  dropped := false
  meta := []

/-- A dropped (jammed) variant, stale beyond the gate. -/
def gnssJammed : SensorMeasurement := { gnssAt 400 with dropped := true }

/-- A second position sensor with a distinct id and the same `z` vector. -/
def gnssTwin : SensorMeasurement := { gnssAt 0 with sensor_id := "GNSS_B" }

/-- A zero-quality RADAR measurement; its fusion weight is exactly 0, and two
copies share the sensor id `RADAR_1`. -/
def radarDup : SensorMeasurement where
  tick := 1
  utc_timestamp := "2026-01-01T00:00:01Z"
  sensor_id := "RADAR_1"
  sensor_type := .RADAR
  z := [47, 8, 3000]
  R := [[1, 0, 0], [0, 1, 0], [0, 0, 1]]
  quality := 0
  latency_ms := 110
  dropped := false
  meta := []

/-- A fresh run state with the weighted strategy selected. -/
def s0 : EngineState where
  tick := 0
  mission_time_s := 0
  rng_seed := 0
  env_name := "Clear Skies / Clean Link"
  envelope_name := "Nominal Demo Flight"
  clarity_ema := 9/10
  history := []
  meas_history := []
  audit_chain := []
  fused := none
  last_seen_tick := []
  fusion_strategy_name := "weighted"

/-- The same state with the unimplemented Kalman strategy selected. -/
def s0k : EngineState := { s0 with fusion_strategy_name := "kalman" }

/-- A tick-1 GNSS measurement fed to the failing step. -/
def mC2 : SensorMeasurement := { gnssAt 90 with tick := 1 }

/-- The state the failing step leaves behind: measurement appended and
last-seen map updated, nothing else. -/
def s0kErr : EngineState :=
  { s0k with meas_history := [mC2], last_seen_tick := [("GNSS_A", 1)] }

/-- A measurement one tick older than the current tick. -/
def staleMeas : SensorMeasurement := { gnssAt 90 with tick := 0 }

/-! ## Claim theorems -/

/-- C3: `select_measurements` scans the chronological history
most-recent-first, keeps every non-dropped measurement whose age is at most
the gate (inclusive at equality), stops permanently at the first non-dropped
measurement beyond the gate, and skips dropped measurements without
terminating the scan; for ages [0, 100, 400] ms under the default 350 ms gate
exactly the first two are selected, and age exactly 350 is included. -/
theorem claim_C3_time_gate_selection :
    (∀ (cfg : FusionConfig) (hist : List SensorMeasurement) (t : Nat),
      select_measurements cfg hist t =
        (hist.reverse.filter (fun m => !m.dropped)).takeWhile
          (fun m => decide (age_ms cfg t m ≤ cfg.fusion_time_gate_ms))) ∧
    (∀ cfg hist t m, m ∈ select_measurements cfg hist t →
      m.dropped = false ∧ age_ms cfg t m ≤ cfg.fusion_time_gate_ms) ∧
    select_measurements defaultConfig [gnssAt 400, gnssAt 100, gnssAt 0] 5 =
      [gnssAt 0, gnssAt 100] ∧
    select_measurements defaultConfig [gnssAt 100, gnssJammed, gnssAt 0] 5 =
      [gnssAt 0, gnssAt 100] ∧
    select_measurements defaultConfig [gnssAt 350] 5 = [gnssAt 350] := by
  refine ⟨?_, mem_select_measurements, ?_, ?_, ?_⟩
  · intro cfg hist t
    exact selectLoop_eq_takeWhile cfg t hist.reverse
  · norm_num [select_measurements, selectLoop, age_ms, qabs, defaultConfig, gnssAt]
  · norm_num [select_measurements, selectLoop, age_ms, qabs, defaultConfig,
      gnssAt, gnssJammed]
  · norm_num [select_measurements, selectLoop, age_ms, qabs, defaultConfig, gnssAt]

theorem claim_C3_witness :
    (gnssAt 0).dropped = false ∧
      age_ms defaultConfig 5 (gnssAt 0) ≤ defaultConfig.fusion_time_gate_ms := by
  have hmem : gnssAt 0 ∈
      select_measurements defaultConfig [gnssAt 400, gnssAt 100, gnssAt 0] 5 := by
    rw [claim_C3_time_gate_selection.2.2.1]
    simp
  exact claim_C3_time_gate_selection.2.1 defaultConfig _ 5 (gnssAt 0) hmem

/-- C9: under the default configuration (`dt_seconds = 1`,
`fusion_time_gate_ms = 350`), any measurement from an earlier tick has age at
least 1000 ms (latency being non-negative), hence is never selected. -/
theorem claim_C9_stale_excluded_by_default_gate (hist : List SensorMeasurement)
    (t : Nat) (m : SensorMeasurement) (htick : m.tick < t)
    (hlat : 0 ≤ m.latency_ms) :
    1000 ≤ age_ms defaultConfig t m ∧
      m ∉ select_measurements defaultConfig hist t := by
  have hage : 1000 ≤ age_ms defaultConfig t m := by
    unfold age_ms
    rw [qabs_eq_abs]
    have hcast : (m.tick : ℚ) + 1 ≤ (t : ℚ) := by exact_mod_cast htick
    have hdt : defaultConfig.dt_seconds = 1 := rfl
    have hinner : (1000 : ℚ) ≤
        ((t : ℚ) - (m.tick : ℚ)) * defaultConfig.dt_seconds * 1000 + m.latency_ms := by
      rw [hdt]
      nlinarith
    exact le_trans hinner (le_abs_self _)
  refine ⟨hage, fun hmem => ?_⟩
  have h350 := (mem_select_measurements _ _ _ _ hmem).2
  have hgate : defaultConfig.fusion_time_gate_ms = 350 := rfl
  rw [hgate] at h350
  linarith

theorem claim_C9_witness :
    1000 ≤ age_ms defaultConfig 1 staleMeas ∧
      staleMeas ∉ select_measurements defaultConfig [staleMeas] 1 :=
  claim_C9_stale_excluded_by_default_gate [staleMeas] 1 staleMeas
    (by norm_num [staleMeas, gnssAt]) (by norm_num [staleMeas, gnssAt])

/-- C7: every invocation of the Kalman stub fails with the explicit
`NotImplementedError` message and never yields an estimate (no silent
substitution), while an unknown strategy name resolves to the weighted
strategy and fuses without failing. -/
theorem claim_C7_kalman_stub_and_fallback :
    (∀ ms, kalmanFuse ms =
      Except.error "KalmanFusion is a stub and must be explicitly implemented.") ∧
    (∀ ms est, kalmanFuse ms ≠ Except.ok est) ∧
    (∀ sqrt cfg ms, strategyFuse sqrt cfg "kalman" ms =
      Except.error "KalmanFusion is a stub and must be explicitly implemented.") ∧
    (∀ name, name ≠ "weighted" → name ≠ "kalman" →
      resolve_strategy name = "weighted") ∧
    (∀ sqrt cfg name ms, name ≠ "weighted" → name ≠ "kalman" →
      strategyFuse sqrt cfg name ms = Except.ok (weightedFuse sqrt cfg ms)) := by
  have hres : ∀ name, name ≠ "weighted" → name ≠ "kalman" →
      resolve_strategy name = "weighted" := by
    intro name h1 h2
    unfold resolve_strategy
    rw [if_neg]
    rintro (h | h) <;> contradiction
  refine ⟨fun ms => rfl, ?_, fun sqrt cfg ms => rfl, hres, ?_⟩
  · intro ms est h
    simp [kalmanFuse] at h
  · intro sqrt cfg name ms h1 h2
    unfold strategyFuse
    rw [hres name h1 h2, if_neg (by decide)]

theorem claim_C7_witness :
    resolve_strategy "ekf" = "weighted" ∧
      strategyFuse Rat.sqrt defaultConfig "ekf" [] =
        Except.ok (weightedFuse Rat.sqrt defaultConfig []) :=
  ⟨claim_C7_kalman_stub_and_fallback.2.2.2.1 "ekf" (by decide) (by decide),
   claim_C7_kalman_stub_and_fallback.2.2.2.2 Rat.sqrt defaultConfig "ekf" []
     (by decide) (by decide)⟩

/-- C8: the governance EMA is exactly
`clarity_ema' = 0.15*raw + 0.85*clarity_ema` with reported clarity
`clarity_ema' * 100`; iterating with a fixed raw input contracts the distance
to the fixed point `100*r` by the factor 0.85 each tick, and gets within any
positive tolerance after a bounded number of ticks. -/
theorem claim_C8_clarity_ema_geometric :
    (∀ envp phys fused ema,
      (governance_compute envp phys fused ema).ema' =
        clarity_ema_update (raw_clarity envp phys fused) ema ∧
      (governance_compute envp phys fused ema).clarity =
        (governance_compute envp phys fused ema).ema' * 100) ∧
    (∀ r ema, clarity_ema_update r ema = (15/100) * r + (85/100) * ema) ∧
    (∀ r n e, clarity_ema_iter r n e - r = (17/20) ^ n * (e - r)) ∧
    (∀ r n e, |clarity_ema_iter r n e * 100 - 100 * r| =
      (17/20) ^ n * |e * 100 - 100 * r|) ∧
    (∀ r e ε, 0 < ε → ∃ N, ∀ n, N ≤ n →
      |clarity_ema_iter r n e * 100 - 100 * r| ≤ ε) := by
  refine ⟨fun envp phys fused ema => ⟨rfl, rfl⟩, fun r ema => rfl,
    clarity_ema_iter_sub, ?_, ?_⟩
  · intro r n e
    have h1 : clarity_ema_iter r n e * 100 - 100 * r =
        (clarity_ema_iter r n e - r) * 100 := by ring
    have h2 : e * 100 - 100 * r = (e - r) * 100 := by ring
    rw [h1, h2, clarity_ema_iter_sub, abs_mul, abs_mul, abs_mul, abs_pow]
    have h3 : |(17/20 : ℚ)| = 17/20 := by norm_num
    have h4 : |(100 : ℚ)| = 100 := by norm_num
    rw [h3, h4]
    ring
  · intro r e ε hε
    obtain ⟨N, hN⟩ := clarity_ema_iter_converges r e (ε / 100) (by positivity)
    refine ⟨N, fun n hn => ?_⟩
    have h := hN n hn
    have h1 : clarity_ema_iter r n e * 100 - 100 * r =
        (clarity_ema_iter r n e - r) * 100 := by ring
    rw [h1, abs_mul]
    have h4 : |(100 : ℚ)| = 100 := by norm_num
    rw [h4]
    linarith

theorem claim_C8_witness :
    (clarity_ema_iter (1/2) 3 (9/10) - 1/2 = (17/20) ^ 3 * (9/10 - 1/2)) ∧
    ∃ N, ∀ n, N ≤ n →
      |clarity_ema_iter (1/2) n (9/10) * 100 - 100 * (1/2)| ≤ 1/1000 :=
  ⟨claim_C8_clarity_ema_geometric.2.2.1 (1/2) 3 (9/10),
   claim_C8_clarity_ema_geometric.2.2.2.2 (1/2) (9/10) (1/1000) (by norm_num)⟩

/-- C4 (amended): whenever the usable (non-dropped, position-capable) subset
is non-empty and carries pairwise-distinct sensor ids, `sensor_contrib` sums
exactly to 1 (hence within 1e-9); an empty usable subset yields the fixed
fallback estimate with empty contributions, `fusion_conf = 0.1`,
`surprise = 1`, zeroed fields and `used_meas_count = 0`. -/
theorem claim_C4_weight_normalization (sqrt : ℚ → ℚ) (cfg : FusionConfig)
    (ms : List SensorMeasurement) :
    (ms.filter posCapable ≠ [] →
      ((ms.filter posCapable).map SensorMeasurement.sensor_id).Nodup →
      (((weightedFuse sqrt cfg ms).sensor_contrib).map Prod.snd).sum = 1 ∧
      |(((weightedFuse sqrt cfg ms).sensor_contrib).map Prod.snd).sum - 1| ≤
        1 / 10 ^ 9) ∧
    (ms.filter posCapable = [] →
      weightedFuse sqrt cfg ms = fallbackEstimate ∧
      (weightedFuse sqrt cfg ms).sensor_contrib = [] ∧
      (weightedFuse sqrt cfg ms).fusion_conf = 1/10 ∧
      (weightedFuse sqrt cfg ms).surprise = 1 ∧
      (weightedFuse sqrt cfg ms).lat = 0 ∧
      (weightedFuse sqrt cfg ms).lon = 0 ∧
      (weightedFuse sqrt cfg ms).altitude_m = 0 ∧
      (weightedFuse sqrt cfg ms).velocity_mps = 0 ∧
      (weightedFuse sqrt cfg ms).heading_deg = 0 ∧
      (weightedFuse sqrt cfg ms).used_meas_count = 0) := by
  constructor
  · intro hne hnd
    have h := contrib_sum_one sqrt cfg ms hne hnd
    exact ⟨h, by rw [h]; norm_num⟩
  · intro h
    have hf := weightedFuse_of_no_usable sqrt cfg ms h
    refine ⟨hf, ?_⟩
    rw [hf]
    norm_num [fallbackEstimate]

/-- C4 counterexample: two usable position-capable measurements that share
the sensor id `RADAR_1` collapse to a single `sensor_contrib` entry, so the
contributions sum to 1/2, not 1 — the claim as stated fails on duplicate
sensor ids. -/
theorem claim_C4_counterexample :
    ([radarDup, radarDup] : List SensorMeasurement) ≠ [] ∧
    List.filter posCapable [radarDup, radarDup] = [radarDup, radarDup] ∧
    (weightedFuse Rat.sqrt defaultConfig [radarDup, radarDup]).sensor_contrib =
      [("RADAR_1", 1/2)] ∧
    (((weightedFuse Rat.sqrt defaultConfig
      [radarDup, radarDup]).sensor_contrib).map Prod.snd).sum = 1/2 ∧
    ¬ (|(((weightedFuse Rat.sqrt defaultConfig
      [radarDup, radarDup]).sensor_contrib).map Prod.snd).sum - 1| ≤ 1 / 10 ^ 9) := by
  have hpc : posCapable radarDup = true := rfl
  have hfil : List.filter posCapable [radarDup, radarDup] = [radarDup, radarDup] := by
    simp [List.filter_cons, hpc]
  have hw : weight defaultConfig radarDup = 0 := by
    norm_num [weight, clip, radarDup, max_def, min_def]
  have hnw : normWeights defaultConfig [radarDup, radarDup] = [1/2, 1/2] := by
    unfold normWeights
    dsimp only
    rw [List.map_cons, List.map_cons, List.map_nil, hw]
    rw [if_pos (by norm_num)]
    norm_num [List.replicate]
  have hcontrib : (weightedFuse Rat.sqrt defaultConfig
      [radarDup, radarDup]).sensor_contrib = [("RADAR_1", 1/2)] := by
    rw [weightedFuse_contrib _ _ _ (by rw [hfil]; simp), hfil, hnw]
    simp [List.zip, dictOfList, dictUpsert, radarDup]
  refine ⟨by simp, hfil, hcontrib, by rw [hcontrib]; simp,
    by rw [hcontrib]; norm_num [abs_le]⟩

theorem claim_C4_witness :
    (([gnssAt 0, gnssTwin].filter posCapable).map
      SensorMeasurement.sensor_id).Nodup ∧
    (((weightedFuse Rat.sqrt defaultConfig
      [gnssAt 0, gnssTwin]).sensor_contrib).map Prod.snd).sum = 1 := by
  have h1 : posCapable (gnssAt 0) = true := rfl
  have h2 : posCapable gnssTwin = true := rfl
  have hne : [gnssAt 0, gnssTwin].filter posCapable ≠ [] := by
    simp [List.filter_cons, h1, h2]
  have hnd : (([gnssAt 0, gnssTwin].filter posCapable).map
      SensorMeasurement.sensor_id).Nodup := by
    simp only [List.filter_cons, List.filter_nil, h1, h2, if_true,
      List.map_cons, List.map_nil]
    norm_num [gnssAt, gnssTwin]
    decide
  exact ⟨hnd,
    ((claim_C4_weight_normalization Rat.sqrt defaultConfig
      [gnssAt 0, gnssTwin]).1 hne hnd).1⟩

/-- C6: the fused confidence and surprise always land in [0,1] (including the
fallback); `calculate_confidence` returns the fixed pair (0.5, 0.5) for fewer
than two measurements, and a single usable measurement fuses to exactly
(0.5, 0.5); two or more usable measurements with identical `z` vectors give
zero dispersion, so surprise 0 and confidence 1; the zero-dispersion clause
conditions only the usable subset, so non-usable (LINK/IMU/BARO or dropped)
entries in the input list are irrelevant, as in the pipeline's calls. -/
theorem claim_C6_confidence_bounds :
    (∀ sqrt cfg ms,
      0 ≤ (weightedFuse sqrt cfg ms).fusion_conf ∧
      (weightedFuse sqrt cfg ms).fusion_conf ≤ 1 ∧
      0 ≤ (weightedFuse sqrt cfg ms).surprise ∧
      (weightedFuse sqrt cfg ms).surprise ≤ 1) ∧
    (∀ sqrt ms ws fz, ms.length < 2 →
      calculate_confidence sqrt ms ws fz = (1/2, 1/2)) ∧
    (∀ sqrt cfg ms, (ms.filter posCapable).length = 1 →
      (weightedFuse sqrt cfg ms).fusion_conf = 1/2 ∧
      (weightedFuse sqrt cfg ms).surprise = 1/2) ∧
    (∀ sqrt cfg ms z0, sqrt 0 = 0 → 2 ≤ (ms.filter posCapable).length →
      (∀ m ∈ ms.filter posCapable, m.z = z0) →
      (weightedFuse sqrt cfg ms).surprise = 0 ∧
      (weightedFuse sqrt cfg ms).fusion_conf = 1) := by
  refine ⟨?_, calculate_confidence_small, ?_, ?_⟩
  · intro sqrt cfg ms
    by_cases hfil : ms.filter posCapable = []
    · rw [weightedFuse_of_no_usable sqrt cfg ms hfil]
      norm_num [fallbackEstimate]
    · have hcs := weightedFuse_conf_surprise sqrt cfg ms hfil
      have h1 := congrArg Prod.fst hcs
      have h2 := congrArg Prod.snd hcs
      dsimp only at h1 h2
      rw [h1, h2]
      exact ⟨(calculate_confidence_bounds _ _ _ _).1,
        (calculate_confidence_bounds _ _ _ _).2.1,
        (calculate_confidence_bounds _ _ _ _).2.2.1,
        (calculate_confidence_bounds _ _ _ _).2.2.2⟩
  · intro sqrt cfg ms hlen
    have hne : ms.filter posCapable ≠ [] := by
      intro h
      rw [h] at hlen
      simp at hlen
    have hcs := weightedFuse_conf_surprise sqrt cfg ms hne
    rw [calculate_confidence_small sqrt _ _ _ (by rw [hlen]; norm_num)] at hcs
    exact ⟨congrArg Prod.fst hcs, congrArg Prod.snd hcs⟩
  · intro sqrt cfg ms z0 hs hlen hz
    have hne : ms.filter posCapable ≠ [] := by
      intro h
      rw [h] at hlen
      simp at hlen
    have hz3 : ∀ m ∈ ms.filter posCapable,
        z3 m = (z0.getD 0 0, z0.getD 1 0, z0.getD 2 0) := by
      intro m hm
      simp [z3, hz m hm]
    have hcs := weightedFuse_conf_surprise sqrt cfg ms hne
    rw [fused_triple_of_const cfg (ms.filter posCapable) hne _ hz3] at hcs
    rw [calculate_confidence_zero_dispersion sqrt (ms.filter posCapable)
      (normWeights cfg (ms.filter posCapable)) _ hlen hz3 hs] at hcs
    exact ⟨congrArg Prod.snd hcs, congrArg Prod.fst hcs⟩

/-- A LINK measurement, not position-capable: present in the fused list but
ignored by the type filter, as in every real pipeline call. -/
def linkMeas : SensorMeasurement where
  tick := 5
  utc_timestamp := "2026-01-01T00:00:00Z"
  sensor_id := "LINK_1"
  sensor_type := .LINK
  z := [120, 0, 0]
  R := [[25, 0, 0], [0, 1/20, 0], [0, 0, 1]]
  quality := 4/5
  latency_ms := 120
  dropped := false
  meta := []

theorem claim_C6_witness :
    (weightedFuse Rat.sqrt defaultConfig
      [linkMeas, gnssAt 0, gnssTwin]).surprise = 0 ∧
    (weightedFuse Rat.sqrt defaultConfig
      [linkMeas, gnssAt 0, gnssTwin]).fusion_conf = 1 := by
  have h0 : posCapable linkMeas = false := rfl
  have h1 : posCapable (gnssAt 0) = true := rfl
  have h2 : posCapable gnssTwin = true := rfl
  have hfil : [linkMeas, gnssAt 0, gnssTwin].filter posCapable =
      [gnssAt 0, gnssTwin] := by
    simp [List.filter_cons, h0, h1, h2]
  exact claim_C6_confidence_bounds.2.2.2 Rat.sqrt defaultConfig
    [linkMeas, gnssAt 0, gnssTwin] [47, 8, 3000] rfl
    (by rw [hfil]; norm_num)
    (by
      rw [hfil]
      intro m hm
      simp only [List.mem_cons, List.mem_singleton, List.not_mem_nil,
        or_false] at hm
      rcases hm with h | h <;> subst h <;> rfl)

/-- C5: `build_audit_record` is a pure function — componentwise-equal inputs
produce an identical record including the digest, for every hash function —
and permuting the (duplicate-free) metadata entries of a used measurement
leaves the canonical payload, hence the digest, unchanged. -/
theorem claim_C5_audit_record_purity :
    (∀ (hash : String → String) t₁ t₂ u₁ u₂ ms₁ ms₂ f₁ f₂,
      t₁ = t₂ → u₁ = u₂ → ms₁ = ms₂ → f₁ = f₂ →
      build_audit_record hash t₁ u₁ ms₁ f₁ = build_audit_record hash t₂ u₂ ms₂ f₂) ∧
    (∀ (hash : String → String) (tick : Nat) (utc : String)
      (fused : FusedEstimate) (pre post : List SensorMeasurement)
      (m : SensorMeasurement) (meta₁ meta₂ : List (String × JVal)),
      meta₁.Perm meta₂ → (meta₁.map Prod.fst).Nodup →
      (build_audit_record hash tick utc
        (pre ++ { m with meta := meta₁ } :: post) fused).sha256 =
      (build_audit_record hash tick utc
        (pre ++ { m with meta := meta₂ } :: post) fused).sha256) := by
  constructor
  · rintro hash t₁ t₂ u₁ u₂ ms₁ ms₂ f₁ f₂ rfl rfl rfl rfl
    rfl
  · intro hash tick utc fused pre post m meta₁ meta₂ hp hnd
    unfold build_audit_record
    dsimp only
    exact congrArg hash
      (render_payload_meta_perm tick utc fused pre post m meta₁ meta₂ hp hnd)

/-- A GNSS metadata map in one insertion order. -/
def metaA : List (String × JVal) :=
  [("jam_factor", .num (1/10)), ("spoof", .bool false)]

/-- The same metadata map with the insertion order permuted. -/
def metaB : List (String × JVal) :=
  [("spoof", .bool false), ("jam_factor", .num (1/10))]

theorem claim_C5_witness :
    (build_audit_record (fun s => s) 7 "2026-01-01T00:00:02Z"
      ([] ++ { gnssAt 0 with meta := metaA } :: []) fallbackEstimate).sha256 =
    (build_audit_record (fun s => s) 7 "2026-01-01T00:00:02Z"
      ([] ++ { gnssAt 0 with meta := metaB } :: []) fallbackEstimate).sha256 := by
  have hperm : metaA.Perm metaB := by
    unfold metaA metaB
    exact List.Perm.swap _ _ _
  have hnd : (metaA.map Prod.fst).Nodup := by
    unfold metaA
    simp
  exact claim_C5_audit_record_purity.2 (fun s => s) 7 "2026-01-01T00:00:02Z"
    fallbackEstimate [] [] (gnssAt 0) metaA metaB hperm hnd

/-- C2 (amended): when a step fails (the active fusion strategy raises), the
telemetry history, audit chain, stored fused estimate, tick counter, mission
time and calculator memory are all unchanged — but the tick's freshly
simulated measurements have already been appended to the measurement history
and the last-seen-tick map has been updated, because Python mutates the state
in place before fusion runs. -/
theorem claim_C2_failure_frame (cfg : FusionConfig) (sqrt : ℚ → ℚ)
    (envp : EnvelopePreset) (now : String) (hash : String → String)
    (truth : Truth) (meas : List SensorMeasurement) (s : EngineState)
    (calcEma : ℚ) (e : String) (s' : EngineState) (c' : ℚ)
    (h : StepEngine.step cfg sqrt envp now hash truth meas s calcEma =
      .error (e, s', c')) :
    s'.tick = s.tick ∧
    s'.mission_time_s = s.mission_time_s ∧
    s'.history = s.history ∧
    s'.audit_chain = s.audit_chain ∧
    s'.fused = s.fused ∧
    s'.clarity_ema = s.clarity_ema ∧
    c' = calcEma ∧
    s'.meas_history =
      meas.foldl (dequeAppend cfg.max_measurement_history) s.meas_history ∧
    s'.last_seen_tick =
      meas.foldl (fun d m => dictUpsert d (m.sensor_id, m.tick)) s.last_seen_tick := by
  obtain ⟨hs', hc'⟩ := step_error_spec cfg sqrt envp now hash truth meas s
    calcEma e s' c' h
  subst hs'
  have hspec := stepAccum_spec cfg s meas
  exact ⟨hspec.1, hspec.2.1, hspec.2.2.2.2.2.2.1, hspec.2.2.2.2.2.2.2.1,
    hspec.2.2.2.2.2.2.2.2.1, hspec.2.2.2.2.2.1, hc',
    hspec.2.2.2.2.2.2.2.2.2.2.1, hspec.2.2.2.2.2.2.2.2.2.2.2⟩

/-- C2 counterexample: with the Kalman strategy selected, the step fails, yet
the error-side state has the tick's GNSS measurement appended to the
measurement history (length 0 to 1) and the last-seen map updated — so a
failed tick IS partially applied, refuting the claim as stated. -/
theorem claim_C2_counterexample :
    StepEngine.step defaultConfig Rat.sqrt nominalEnvelope "T0" (fun s => s)
      truth0 [mC2] s0k (9/10) =
      .error ("KalmanFusion is a stub and must be explicitly implemented.",
        s0kErr, 9/10) ∧
    s0kErr.meas_history = [mC2] ∧
    s0k.meas_history = [] ∧
    s0kErr.meas_history ≠ s0k.meas_history ∧
    s0kErr.last_seen_tick = [("GNSS_A", 1)] ∧
    s0k.last_seen_tick = [] ∧
    s0kErr.last_seen_tick ≠ s0k.last_seen_tick ∧
    s0kErr.history = s0k.history ∧
    s0kErr.audit_chain = s0k.audit_chain ∧
    s0kErr.tick = s0k.tick ∧
    s0kErr.mission_time_s = s0k.mission_time_s := by
  refine ⟨rfl, rfl, rfl, by simp [s0kErr, s0k, s0], rfl, rfl,
    by simp [s0kErr, s0k, s0], rfl, rfl, rfl, rfl⟩

theorem claim_C2_witness :
    s0kErr.tick = s0k.tick ∧
    s0kErr.mission_time_s = s0k.mission_time_s ∧
    s0kErr.history = s0k.history ∧
    s0kErr.audit_chain = s0k.audit_chain ∧
    s0kErr.fused = s0k.fused ∧
    s0kErr.clarity_ema = s0k.clarity_ema ∧
    (9/10 : ℚ) = 9/10 ∧
    s0kErr.meas_history =
      [mC2].foldl (dequeAppend defaultConfig.max_measurement_history)
        s0k.meas_history ∧
    s0kErr.last_seen_tick =
      [mC2].foldl (fun d m => dictUpsert d (m.sensor_id, m.tick))
        s0k.last_seen_tick :=
  claim_C2_failure_frame defaultConfig Rat.sqrt nominalEnvelope "T0"
    (fun s => s) truth0 [mC2] s0k (9/10)
    "KalmanFusion is a stub and must be explicitly implemented." s0kErr (9/10)
    rfl

/-- Projection of a successful step result onto the new engine state. -/
def okState (r : Except (String × EngineState × ℚ) (EngineState × ℚ)) :
    Option EngineState := r.toOption.map Prod.fst

/-- Projection of a successful step result onto the new calculator memory. -/
def okCalc (r : Except (String × EngineState × ℚ) (EngineState × ℚ)) :
    Option ℚ := r.toOption.map Prod.snd

/-- C1 (code bug): every successful step stamps the appended audit record and
telemetry record with the wall-clock string `now` from
`datetime.utcnow()`, and the audit record — including the hashed payload —
is injective in that timestamp: two runs of the same seed and scenario made
at different wall-clock instants produce different bytes, so byte-identical
replay fails on the code as written. -/
theorem claim_C1_wall_clock_in_outputs :
    (∀ cfg sqrt envp now hash truth meas s calcEma s' c',
      0 < cfg.max_audit_history → 0 < cfg.max_telemetry_history →
      StepEngine.step cfg sqrt envp now hash truth meas s calcEma = .ok (s', c') →
      (s'.audit_chain.getLast?).map AuditRecord.utc = some now ∧
      (s'.history.getLast?).map Telemetry.utc_timestamp = some now) ∧
    (∀ (hash : String → String) t ms f u₁ u₂, u₁ ≠ u₂ →
      build_audit_record hash t u₁ ms f ≠ build_audit_record hash t u₂ ms f) ∧
    (∀ (t : Nat) (ms : List SensorMeasurement) (f : FusedEstimate) u₁ u₂,
      u₁ ≠ u₂ → auditPayload t u₁ ms f ≠ auditPayload t u₂ ms f) ∧
    build_audit_record (fun s => s) 1 "2026-01-01T00:00:00Z" [] fallbackEstimate ≠
      build_audit_record (fun s => s) 1 "2026-01-01T00:00:01Z" [] fallbackEstimate := by
  refine ⟨?_, ?_, ?_, ?_⟩
  · intro cfg sqrt envp now hash truth meas s calcEma s' c' hA hT h
    obtain ⟨fused, hsf, hc, htick, hmt, hema, hfz, haud, tel, hhist, hutc, hclar⟩ :=
      step_ok_spec cfg sqrt envp now hash truth meas s calcEma s' c' h
    constructor
    · rw [haud, dequeAppend_getLast _ _ _ hA]
      rfl
    · rw [hhist, dequeAppend_getLast _ _ _ hT]
      exact congrArg some hutc
  · intro hash t ms f u₁ u₂ hne h
    exact hne (congrArg AuditRecord.utc h)
  · intro t ms f u₁ u₂ hne h
    apply hne
    unfold auditPayload at h
    have h2 := h
    simp only [JVal.obj.injEq, List.cons.injEq, Prod.mk.injEq, JVal.str.injEq] at h2
    exact h2.2.1.2
  · intro h
    have h2 : ("2026-01-01T00:00:00Z" : String) = "2026-01-01T00:00:01Z" :=
      congrArg AuditRecord.utc h
    exact absurd h2 (by decide)

theorem claim_C1_witness :
    (okState (StepEngine.step defaultConfig Rat.sqrt nominalEnvelope
      "2026-03-03T00:00:00Z" (fun s => s) truth0 [] s0 (9/10))).map
        (fun t => (t.audit_chain.getLast?).map AuditRecord.utc) =
      some (some "2026-03-03T00:00:00Z") ∧
    (okState (StepEngine.step defaultConfig Rat.sqrt nominalEnvelope
      "2026-03-03T00:00:00Z" (fun s => s) truth0 [] s0 (9/10))).map
        (fun t => (t.history.getLast?).map Telemetry.utc_timestamp) =
      some (some "2026-03-03T00:00:00Z") := by
  obtain ⟨p, hp⟩ : ∃ p, StepEngine.step defaultConfig Rat.sqrt nominalEnvelope
      "2026-03-03T00:00:00Z" (fun s => s) truth0 [] s0 (9/10) = .ok p := ⟨_, rfl⟩
  obtain ⟨h1, h2⟩ := claim_C1_wall_clock_in_outputs.1 defaultConfig Rat.sqrt
    nominalEnvelope "2026-03-03T00:00:00Z" (fun s => s) truth0 [] s0 (9/10)
    p.1 p.2 (by decide) (by decide) (by rw [hp])
  constructor
  · rw [hp]
    simp only [okState, Except.toOption, Option.map_some]
    exact congrArg some h1
  · rw [hp]
    simp only [okState, Except.toOption, Option.map_some]
    exact congrArg some h2

/-- C10: `EngineState.reset` restores the state-side `clarity_ema` field to
0.9, but the step pipeline neither reads nor writes that field — it threads
the calculator-side EMA instead.  The first clarity computed after a reset is
`100 * (0.15*raw + 0.85*calcEma)` with `calcEma` the calculator's pre-reset
memory, so the governance smoothing survives `EngineState.reset` until
`ClarityRiskCalculator.reset` is called separately. -/
theorem claim_C10_reset_spares_calculator_memory :
    (∀ s, (EngineState.reset s).clarity_ema = 9/10) ∧
    (∀ cfg sqrt envp now hash truth meas s calcEma a,
      StepEngine.step cfg sqrt envp now hash truth meas
        { s with clarity_ema := a } calcEma =
      match StepEngine.step cfg sqrt envp now hash truth meas s calcEma with
      | .ok (t, c) => .ok ({ t with clarity_ema := a }, c)
      | .error (e, t, c) => .error (e, { t with clarity_ema := a }, c)) ∧
    (∀ cfg sqrt envp now hash truth meas s calcEma s' c',
      0 < cfg.max_telemetry_history →
      StepEngine.step cfg sqrt envp now hash truth meas
        (EngineState.reset s) calcEma = .ok (s', c') →
      ∃ fused,
        c' = clarity_ema_update (raw_clarity envp
          { q_kpa := truth.q_kpa, thermal_index := truth.thermal_index,
            threat_index := truth.threat_index } fused) calcEma ∧
        s'.clarity_ema = 9/10 ∧
        (s'.history.getLast?).map Telemetry.clarity = some (c' * 100)) := by
  refine ⟨fun s => rfl, step_state_ema_irrelevant, ?_⟩
  intro cfg sqrt envp now hash truth meas s calcEma s' c' hT h
  obtain ⟨fused, hsf, hc, htick, hmt, hema, hfz, haud, tel, hhist, hutc, hclar⟩ :=
    step_ok_spec cfg sqrt envp now hash truth meas (EngineState.reset s) calcEma
      s' c' h
  have h3 : tel.clarity = (governance_compute envp
      { q_kpa := truth.q_kpa, thermal_index := truth.thermal_index,
        threat_index := truth.threat_index } fused calcEma).ema' * 100 := hclar
  refine ⟨fused, ?_, ?_, ?_⟩
  · rw [hc]
    exact rfl
  · rw [hema]
    exact rfl
  · rw [hhist, dequeAppend_getLast _ _ _ hT, hc]
    exact congrArg some h3

theorem claim_C10_witness :
    (EngineState.reset s0).clarity_ema = 9/10 ∧
    (okState (StepEngine.step defaultConfig Rat.sqrt nominalEnvelope "T1"
      (fun s => s) truth0 [] (EngineState.reset s0) (1/2))).map
        EngineState.clarity_ema = some (9/10) ∧
    (okState (StepEngine.step defaultConfig Rat.sqrt nominalEnvelope "T1"
      (fun s => s) truth0 [] (EngineState.reset s0) (1/2))).map
        (fun t => (t.history.getLast?).map Telemetry.clarity) =
      (okCalc (StepEngine.step defaultConfig Rat.sqrt nominalEnvelope "T1"
        (fun s => s) truth0 [] (EngineState.reset s0) (1/2))).map
        (fun c => some (c * 100)) := by
  obtain ⟨p, hp⟩ : ∃ p, StepEngine.step defaultConfig Rat.sqrt nominalEnvelope
      "T1" (fun s => s) truth0 [] (EngineState.reset s0) (1/2) = .ok p := ⟨_, rfl⟩
  obtain ⟨fused, hc, hema, hlast⟩ :=
    claim_C10_reset_spares_calculator_memory.2.2 defaultConfig Rat.sqrt
      nominalEnvelope "T1" (fun s => s) truth0 [] s0 (1/2) p.1 p.2
      (by decide) (by rw [hp])
  refine ⟨rfl, ?_, ?_⟩
  · rw [hp]
    simp only [okState, Except.toOption, Option.map_some]
    exact congrArg some hema
  · rw [hp]
    simp only [okState, okCalc, Except.toOption, Option.map_some]
    exact congrArg some hlast
